import Mathlib

/-!
Verification of the sqlpro database access layer. The definitions below are a
shallow embedding of the argument rewriter, the value encoder, the record
writer, the transaction manager and the row scanner of the package; the
theorems check the specification claims against this embedding. Machine
integers are modeled as Int (none of the verified paths overflow), Go byte
slices by their textual content, time instants by their RFC3339Nano rendering,
and Go panics by a distinguished error constructor.
-/

namespace Sqlpro

/-- Abstract error values produced by the package. Named constructors stand for
the sentinel and formatted errors of the source; code models an arbitrary
driver, job or parse error; wrapped models an errors.Wrap or a fmt.Errorf with
a single percent w verb, sqlWrapped the sqlError decoration, combined a
fmt.Errorf with two percent w verbs, and closeAfterOk and closeAfterErr the
deferred connection close combination, whose first operand is the nil error in
the first form. goPanic marks a Go panic, which is not an error return. -/
inductive Err
  | queryReturnedZeroRows
  | mismatchedRows
  | emptySlice
  | unsupportedLiteralKind
  | argUnderflow
  | keyWrongType
  | readOnlyViolation
  | emptyQuery
  | nilPrimaryKey
  | noPkForUpdate
  | ctxDone
  | nestedTx
  | goPanic
  | code (n : Nat)
  | wrapped (e : Err)
  | sqlWrapped (e : Err)
  | combined (a b : Err)
  | closeAfterOk (n : Nat)
  | closeAfterErr (prev : Err) (n : Nat)
deriving DecidableEq

/-- The two SQL drivers supported by Open (wrapper.go). -/
inductive Driver
  | sqlite3
  | postgres
deriving DecidableEq

/-- The single-quote character. -/
def sq : Char := Char.ofNat 39

/-- The double-quote character. -/
def dq : Char := Char.ofNat 34

/-- One single quote as a string. -/
def sqS : String := String.mk [sq]

/-- Two single quotes, the SQL escape of a quote inside a string literal. -/
def sq2S : String := String.mk [sq, sq]

/-- One double quote as a string. -/
def dqS : String := String.mk [dq]

/-- Two double quotes, the SQL escape of a quote inside an identifier. -/
def dq2S : String := String.mk [dq, dq]

/-- Esc (wrapper.go): escapes s for use as an SQL identifier by wrapping it in
double quotes and doubling any double quote inside. -/
def Esc (s : String) : String :=
  dqS ++ String.join (s.data.map (fun c => if c = dq then dq2S else String.mk [c])) ++ dqS

/-- EscValue (wrapper.go): escapes s for use as an SQL string literal by
wrapping it in single quotes and doubling any single quote inside. -/
def EscValue (s : String) : String :=
  sqS ++ String.join (s.data.map (fun c => if c = sq then sq2S else String.mk [c])) ++ sqS

/-- Model of the Go values that flow through the rewriter and the record
writer. Pointer values carry an Option, none being the nil pointer. vBytes
models a non-nil byte slice by its textual content, vTime a time.Time instant
by its RFC3339Nano rendering, vNull the untyped nil interface alias the driver
NULL. -/
inductive GoValue
  | vNull
  | vStr (s : String)
  | vStrPtr (s : Option String)
  | vInt (n : Int)
  | vInt16 (n : Int)
  | vInt32 (n : Int)
  | vInt64 (n : Int)
  | vIntPtr (n : Option Int)
  | vInt32Ptr (n : Option Int)
  | vInt64Ptr (n : Option Int)
  | vBool (b : Bool)
  | vBytes (s : String)
  | vTime (rfc : String)
deriving DecidableEq

/-- isZero (exec.go): reflect.DeepEqual of the value with the zero value of its
declared type. The zero time renders as 0001-01-01T00:00:00Z; a modeled (hence
non-nil) byte slice is never DeepEqual to the nil byte slice. -/
def isZero : GoValue → Bool
  | .vNull => true
  | .vStr s => decide (s = "")
  | .vStrPtr o => o.isNone
  | .vInt n => decide (n = 0)
  | .vInt16 n => decide (n = 0)
  | .vInt32 n => decide (n = 0)
  | .vInt64 n => decide (n = 0)
  | .vIntPtr o => o.isNone
  | .vInt32Ptr o => o.isNone
  | .vInt64Ptr o => o.isNone
  | .vBool b => !b
  | .vBytes _ => false
  | .vTime r => decide (r = "0001-01-01T00:00:00Z")

/-- The per-field descriptor (util.go fieldInfo), restricted to the flags the
verified paths read. -/
structure FieldInfo where
  name : String := ""
  primaryKey : Bool := false
  null : Bool := false
  notNull : Bool := false
  ptr : Bool := false
deriving DecidableEq

/-- allowNull (util.go): a field can store NULL when it is a pointer without
the notnull tag, or a non-pointer with the null tag. -/
def FieldInfo.allowNull (fi : FieldInfo) : Bool :=
  if fi.ptr then !fi.notNull else fi.null

/-- nullValue (util.go): normalizes a zero value to NULL when the field allows
it; a zero (nil) pointer in a field that does not allow NULL panics in Go,
modeled as the goPanic error. -/
def nullValue (value : GoValue) (fi : FieldInfo) : Except Err GoValue :=
  if isZero value then
    if fi.allowNull then .ok .vNull
    else if fi.ptr then .error .goPanic
    else .ok value
  else .ok value

/-- EscValueForInsert (util.go): renders a value as an inline SQL literal for
the bulk writers, after null normalization. Dereferencing a nil pointer that
survived normalization panics in Go (goPanic). The float and driver.Valuer
cases of the source are outside the modeled value grammar. -/
def EscValueForInsert (value : GoValue) (fi : FieldInfo) : Except Err String := do
  let v0 ← nullValue value fi
  match v0 with
  | .vNull => pure "NULL"
  | .vInt n => pure (toString n)
  | .vInt16 n => pure (toString n)
  | .vInt32 n => pure (toString n)
  | .vInt64 n => pure (toString n)
  | .vIntPtr (some n) => pure (toString n)
  | .vInt32Ptr (some n) => pure (toString n)
  | .vInt64Ptr (some n) => pure (toString n)
  | .vIntPtr none => .error .goPanic
  | .vInt32Ptr none => .error .goPanic
  | .vInt64Ptr none => .error .goPanic
  | .vBool b => pure (if b then "TRUE" else "FALSE")
  | .vBytes s => pure (EscValue s)
  | .vStr s => pure (EscValue s)
  | .vStrPtr (some s) => pure (EscValue s)
  | .vStrPtr none => .error .goPanic
  | .vTime r => pure (EscValue r)

/-- The declared-type kinds distinguished by getStructInfo when it assigns the
field empty literal (util.go lines 224 to 234). -/
inductive FieldKind
  | kPtr
  | kString
  | kInt
  | kInt8
  | kInt16
  | kInt32
  | kInt64
  | kUint
  | kUint8
  | kUint16
  | kUint32
  | kUint64
  | kFloat32
  | kFloat64
  | kBool
  | kStruct
  | kSlice
  | kOther
deriving DecidableEq

/-- The switch on the field kind in getStructInfo: only reflect.Ptr,
reflect.String and reflect.Int have dedicated cases; every other kind takes the
default branch. -/
def emptyValueInit : FieldKind → String
  | .kPtr => "null"
  | .kString => sq2S
  | .kInt => "0"
  | _ => sq2S

/-- The emptyValue a field descriptor ends up with in getStructInfo: the kind
switch above followed by the rewrite of null to two single quotes when
allowNull holds (util.go lines 264 to 266). -/
def getStructInfoEmptyValue (kind : FieldKind) (nullTag notNullTag : Bool) : String :=
  let ev := emptyValueInit kind
  let fi : FieldInfo := { ptr := decide (kind = .kPtr), null := nullTag, notNull := notNullTag }
  if fi.allowNull ∧ ev = "null" then sq2S else ev

/-- C8 counterexample: a non-pointer field of kind int32 receives the
two-single-quotes empty literal, not the claimed 0; only the plain int kind
receives 0. -/
theorem c8_counterexample :
    getStructInfoEmptyValue .kInt32 false false = sq2S ∧ sq2S ≠ "0" := by
  constructor
  · rfl
  · decide

/-- C8 amended: a pointer field gets the empty literal null, rewritten to two
single quotes unless the notnull tag blocks allowNull; a string field gets two
single quotes; a field of the plain int kind gets 0; every other kind,
including the other integer widths and the unsigned kinds, gets two single
quotes. -/
theorem c8_empty_literal (kind : FieldKind) (nullTag notNullTag : Bool) :
    getStructInfoEmptyValue kind nullTag notNullTag =
      if kind = .kPtr then (if notNullTag then "null" else sq2S)
      else if kind = .kString then sq2S
      else if kind = .kInt then "0"
      else sq2S := by
  cases kind <;> cases nullTag <;> cases notNullTag <;> rfl

/-- Inputs of one txBeginContext run (transaction.go): the driver identity and
whether the two driver calls it can issue fail. -/
structure BeginEnv where
  driver : Driver
  beginTxErr : Bool
  immediateErr : Bool
deriving DecidableEq

/-- Observable outcome of txBeginContext: whether a transaction was returned,
whether the process-wide begin mutex is still held at return, and whether the
ROLLBACK then BEGIN IMMEDIATE statement was issued. -/
structure BeginOutcome where
  ok : Bool
  mutexHeldAtReturn : Bool
  immediateIssued : Bool
deriving DecidableEq

/-- txBeginContext (transaction.go lines 18 to 78). In write mode on sqlite3
the begin mutex is locked before the driver begin. The first error return
after the driver begin comes before any unlock; the unlock branch below it in
the source re-tests the error that was already returned and is dead code, so
on that path the function returns with the mutex still held. On the immediate
statement path the mutex is unlocked on both the success and the error
return. -/
def txBeginContext (env : BeginEnv) (readOnlyOpt : Option Bool) : BeginOutcome :=
  let wMode : Bool := match readOnlyOpt with | none => true | some ro => !ro
  let lockTaken : Bool := wMode && decide (env.driver = .sqlite3)
  if env.beginTxErr then
    { ok := false, mutexHeldAtReturn := lockTaken, immediateIssued := false }
  else if lockTaken then
    if env.immediateErr then
      { ok := false, mutexHeldAtReturn := false, immediateIssued := true }
    else
      { ok := true, mutexHeldAtReturn := false, immediateIssued := true }
  else
    { ok := true, mutexHeldAtReturn := false, immediateIssued := false }

/-- C1: the code violates the claim. When a read-write sqlite3 begin fails in
the driver begin call, txBeginContext returns with the begin mutex still held;
the mutex is released only on the immediate-statement error path and on the
success path. -/
theorem c1_begin_mutex_leak :
    (txBeginContext { driver := .sqlite3, beginTxErr := true, immediateErr := false }
        none).mutexHeldAtReturn = true
    ∧ (txBeginContext { driver := .sqlite3, beginTxErr := true, immediateErr := false }
        none).ok = false
    ∧ (txBeginContext { driver := .sqlite3, beginTxErr := false, immediateErr := true }
        none).mutexHeldAtReturn = false
    ∧ (txBeginContext { driver := .sqlite3, beginTxErr := false, immediateErr := false }
        none).mutexHeldAtReturn = false
    ∧ (txBeginContext { driver := .sqlite3, beginTxErr := true, immediateErr := false }
        (some true)).mutexHeldAtReturn = false := by
  refine ⟨rfl, rfl, rfl, rfl, rfl⟩

/-- Column values delivered by the database driver to a Scanner
implementation. -/
inductive ColValue
  | nullV
  | bytes (s : String)
  | strV (s : String)
  | otherV
deriving DecidableEq

/-- NullJson (util.go): byte data plus a validity flag; the zero value is
invalid with empty data. -/
structure NullJson where
  data : String := ""
  valid : Bool := false
deriving DecidableEq

/-- NullJson.Scan (util.go lines 90 to 111): nil input and empty byte or
string input leave the receiver at its zero (invalid) value; non-empty input
is stored verbatim and marks it valid; any other input type fails. -/
def NullJson.Scan (v : ColValue) : Except Err NullJson :=
  match v with
  | .nullV => .ok {}
  | .bytes s => if s.length = 0 then .ok {} else .ok { data := s, valid := true }
  | .strV s => if s.length = 0 then .ok {} else .ok { data := s, valid := true }
  | .otherV => .error (.code 0)

/-- The json read-back step of scanRow (scan.go lines 170 to 184): a valid
holder is unmarshalled into a fresh value of the field type, with unmarshal
errors wrapped; an invalid holder sets the field to the zero value of its type
without attempting any parse. -/
def readBackJson {V : Type} (nj : NullJson) (unmarshal : String → Except Err V)
    (zeroV : V) : Except Err V :=
  if nj.valid then
    match unmarshal nj.data with
    | .error e => .error (.wrapped e)
    | .ok v => .ok v
  else .ok zeroV

/-- C10: a json-tagged field whose column holds NULL, an empty string or an
empty byte slice is assigned the zero value of its declared type, and no JSON
unmarshalling happens: the outcome does not depend on the unmarshal function
at all, so no parse error can arise. -/
theorem c10_empty_json_null {V : Type} (unmarshal : String → Except Err V) (zeroV : V)
    (col : ColValue)
    (hcol : col = .nullV ∨ col = .bytes "" ∨ col = .strV "") :
    (NullJson.Scan col).bind (fun nj => readBackJson nj unmarshal zeroV) = .ok zeroV := by
  rcases hcol with h | h | h <;> subst h <;> rfl

/-- Witness for C10 at the empty byte slice, with an unmarshal function that
always fails: the field still reads back as the zero value. -/
theorem c10_empty_json_null_witness :
    (NullJson.Scan (.bytes "")).bind
      (fun nj => readBackJson nj (fun _ => .error (.code 7)) (0 : Nat)) = .ok 0 :=
  c10_empty_json_null (fun _ => .error (.code 7)) 0 (.bytes "") (by decide)

/-- The placeholder dialects (wrapper.go). -/
inductive PlaceholderMode
  | dollar
  | question
deriving DecidableEq

/-- The rewriter configuration carried by the handle (wrapper.go New): dialect,
value and key placeholder runes and the slice inlining threshold, with the
defaults set by New. -/
structure DBConf where
  placeholderMode : PlaceholderMode := .question
  placeholderValue : Char := Char.ofNat 63
  placeholderKey : Char := Char.ofNat 64
  maxPlaceholder : Nat := 100
deriving DecidableEq

/-- appendPlaceholder (util.go): QUESTION emits a question mark, DOLLAR emits a
dollar sign followed by the one-based index of the argument just appended. -/
def appendPlaceholder (mode : PlaceholderMode) (numArg : Nat) : String :=
  match mode with
  | .question => "?"
  | .dollar => "$" ++ toString (numArg + 1)

/-- A positional argument of replaceArgs: either a scalar value (this includes
the driver-value byte slices, which the rewriter never expands) or a
reflective slice, tagged with whether its element type is a pointer type. -/
inductive Arg
  | value (v : GoValue)
  | slice (elemPtr : Bool) (elems : List GoValue)
deriving DecidableEq

/-- The literal formatter of the slice branch of replaceArgs for slices longer
than MaxPlaceholder (util.go lines 370 to 407): only string, int, int32, int64
and pointers to them are supported, nil pointers rendering as null; every
other element type is rejected. -/
def sliceLiteral : GoValue → Except Err String
  | .vStr s => .ok (EscValue s)
  | .vStrPtr none => .ok "null"
  | .vStrPtr (some s) => .ok (EscValue s)
  | .vInt n => .ok (toString n)
  | .vInt32 n => .ok (toString n)
  | .vInt64 n => .ok (toString n)
  | .vIntPtr none => .ok "null"
  | .vIntPtr (some n) => .ok (toString n)
  | .vInt32Ptr none => .ok "null"
  | .vInt32Ptr (some n) => .ok (toString n)
  | .vInt64Ptr none => .ok "null"
  | .vInt64Ptr (some n) => .ok (toString n)
  | _ => .error .unsupportedLiteralKind

/-- The element loop of the slice branch of replaceArgs (util.go lines 363 to
413): over the threshold each element is inlined by the literal formatter;
otherwise a dialect placeholder is emitted and the null-normalized element is
appended to the argument list. Elements are comma separated; nArgs is the
number of arguments appended so far (used by the dollar dialect). Returns the
SQL fragment between the parentheses and the appended arguments. -/
def expandSliceAux (conf : DBConf) (elemPtr : Bool) (overMax : Bool) :
    List GoValue → Nat → Except Err (String × List GoValue)
  | [], _ => .ok ("", [])
  | item :: rest, nArgs =>
    if overMax then
      match sliceLiteral item with
      | .error e => .error e
      | .ok lit =>
        match expandSliceAux conf elemPtr overMax rest nArgs with
        | .error e => .error e
        | .ok (s, as) =>
          .ok ((if rest.isEmpty then lit else lit ++ "," ++ s), as)
    else
      match nullValue item { ptr := elemPtr } with
      | .error e => .error e
      | .ok v2 =>
        match expandSliceAux conf elemPtr overMax rest (nArgs + 1) with
        | .error e => .error e
        | .ok (s, as) =>
          .ok ((if rest.isEmpty then appendPlaceholder conf.placeholderMode nArgs
                else appendPlaceholder conf.placeholderMode nArgs ++ "," ++ s),
               v2 :: as)

/-- The handling of one placeholder rune with its consumed argument (util.go
lines 332 to 419), factored out of the loop: the emitted SQL fragment and the
arguments appended to the rewritten argument list. A key placeholder inlines a
string argument as a quoted identifier, dereferencing a nil string pointer
panics, any other argument type is an error. A value placeholder appends a
scalar argument behind one dialect placeholder (the driver-value branch and
the final fallback of the source behave identically and are merged here), or
expands a slice argument after rejecting the empty slice. -/
def consumePlaceholder (conf : DBConf) (c : Char) (arg : Arg) (nArgs : Nat) :
    Except Err (String × List Arg) :=
  if c = conf.placeholderKey then
    match arg with
    | .value (.vStr s0) => .ok (Esc s0, [])
    | .value (.vStrPtr (some s0)) => .ok (Esc s0, [])
    | .value (.vStrPtr none) => .error .goPanic
    | _ => .error .keyWrongType
  else
    match arg with
    | .value v => .ok (appendPlaceholder conf.placeholderMode nArgs, [.value v])
    | .slice elemPtr elems =>
      if elems.length = 0 then .error .emptySlice
      else
        match expandSliceAux conf elemPtr
            (decide (conf.maxPlaceholder < elems.length)) elems nArgs with
        | .error e => .error e
        | .ok (frag, as) => .ok ("(" ++ frag ++ ")", as.map .value)

/-- The main rune loop of replaceArgs (util.go lines 294 to 420). The Option
argument is the quote state, some q inside a single- or double-quoted span
(quote handling precedes the placeholder checks, a doubled quote inside a span
stays inside it, and an unterminated span is copied to the end). Outside a
span a placeholder rune consumes the next argument via consumePlaceholder. On
an error Go returns an empty SQL string and nil arguments, the error branch
here. The base case returns the leftover arguments, which the source appends
to the rewritten argument list unchanged. -/
def raLoop (conf : DBConf) : Option Char → List Char → List Arg → Nat →
    Except Err (String × List Arg)
  | _, [], remArgs, _ => .ok ("", remArgs)
  | some _, [c], remArgs, _ =>
    .ok (String.mk [c], remArgs)
  | some q, c :: c2 :: rest2, remArgs, nArgs =>
    if c = q then
      if c2 = q then
        match raLoop conf (some q) rest2 remArgs nArgs with
        | .error e => .error e
        | .ok (s, out) => .ok (String.mk [c, c2] ++ s, out)
      else
        match raLoop conf none (c2 :: rest2) remArgs nArgs with
        | .error e => .error e
        | .ok (s, out) => .ok (String.mk [c] ++ s, out)
    else
      match raLoop conf (some q) (c2 :: rest2) remArgs nArgs with
      | .error e => .error e
      | .ok (s, out) => .ok (String.mk [c] ++ s, out)
  | none, c :: rest, remArgs, nArgs =>
    if c = sq ∨ c = dq then
      match raLoop conf (some c) rest remArgs nArgs with
      | .error e => .error e
      | .ok (s, out) => .ok (String.mk [c] ++ s, out)
    else if c = conf.placeholderKey ∨ c = conf.placeholderValue then
      match remArgs with
      | [] => .error .argUnderflow
      | arg :: remArgs2 =>
        match consumePlaceholder conf c arg nArgs with
        | .error e => .error e
        | .ok (frag, app) =>
          match raLoop conf none rest remArgs2 (nArgs + app.length) with
          | .error e => .error e
          | .ok (s, out) => .ok (frag ++ s, app ++ out)
    else
      match raLoop conf none rest remArgs nArgs with
      | .error e => .error e
      | .ok (s, out) => .ok (String.mk [c] ++ s, out)

/-- replaceArgs (util.go lines 277 to 430): rewrite sqlS embedding the given
arguments, returning the rewritten SQL and the reduced argument list. -/
def replaceArgs (conf : DBConf) (sqlS : String) (args : List Arg) :
    Except Err (String × List Arg) :=
  raLoop conf none sqlS.data args 0

instance {ε α : Type} [DecidableEq ε] [DecidableEq α] : DecidableEq (Except ε α) := fun a b =>
  match a, b with
  | .ok x, .ok y =>
    if h : x = y then .isTrue (by rw [h]) else .isFalse (fun hh => h (by injection hh))
  | .error x, .error y =>
    if h : x = y then .isTrue (by rw [h]) else .isFalse (fun hh => h (by injection hh))
  | .ok _, .error _ => .isFalse (fun hh => by injection hh)
  | .error _, .ok _ => .isFalse (fun hh => by injection hh)

/-- Null normalization of a slice element as the claim describes it: inside a
slice with pointer elements a zero (nil) element becomes NULL, every other
element passes through unchanged. -/
def nullNormalize (elemPtr : Bool) (v : GoValue) : GoValue :=
  if isZero v && elemPtr then .vNull else v

/-- Inside the slice branch the synthesized field descriptor carries only the
pointer flag, so nullValue never panics there and agrees with
nullNormalize. -/
theorem nullValue_slice (elemPtr : Bool) (v : GoValue) :
    nullValue v { ptr := elemPtr } = .ok (nullNormalize elemPtr v) := by
  unfold nullValue nullNormalize FieldInfo.allowNull
  cases hz : isZero v <;> cases elemPtr <;> simp [hz]

/-- Spec-side string of n dialect placeholders, comma separated, numbered from
argument index k. -/
def phList (mode : PlaceholderMode) : Nat → Nat → String
  | _, 0 => ""
  | k, n + 1 =>
    if n = 0 then appendPlaceholder mode k
    else appendPlaceholder mode k ++ "," ++ phList mode (k + 1) n

/-- Under the threshold the element loop emits one dialect placeholder per
element and appends the null-normalized elements in order. -/
theorem expandSliceAux_under (conf : DBConf) (p : Bool) (elems : List GoValue) :
    ∀ (k : Nat), elems ≠ [] →
    expandSliceAux conf p false elems k =
      .ok (phList conf.placeholderMode k elems.length, elems.map (nullNormalize p)) := by
  induction elems with
  | nil => intro _ hne; exact absurd rfl hne
  | cons item rest ih =>
    intro k _
    have step : expandSliceAux conf p false (item :: rest) k =
        (match nullValue item { ptr := p } with
         | .error e => .error e
         | .ok v2 =>
           match expandSliceAux conf p false rest (k + 1) with
           | .error e => .error e
           | .ok (s, as) =>
             .ok ((if rest.isEmpty then appendPlaceholder conf.placeholderMode k
                   else appendPlaceholder conf.placeholderMode k ++ "," ++ s),
                  v2 :: as)) := rfl
    rw [step, nullValue_slice]
    cases rest with
    | nil => simp [expandSliceAux, phList]
    | cons item2 rest2 =>
      rw [ih (k + 1) (by simp)]
      simp [phList]

/-- The element kinds the over-threshold literal formatter accepts. -/
def supportedLiteral : GoValue → Bool
  | .vStr _ => true
  | .vStrPtr _ => true
  | .vInt _ => true
  | .vInt32 _ => true
  | .vInt64 _ => true
  | .vIntPtr _ => true
  | .vInt32Ptr _ => true
  | .vInt64Ptr _ => true
  | _ => false

/-- Spec-side rendering of a supported element as an inline literal: decimal
for the three supported integer kinds, single-quoted with doubled quotes for
strings, null for nil pointers. -/
def literalOf : GoValue → String
  | .vStr s => EscValue s
  | .vStrPtr none => "null"
  | .vStrPtr (some s) => EscValue s
  | .vInt n => toString n
  | .vInt32 n => toString n
  | .vInt64 n => toString n
  | .vIntPtr none => "null"
  | .vIntPtr (some n) => toString n
  | .vInt32Ptr none => "null"
  | .vInt32Ptr (some n) => toString n
  | .vInt64Ptr none => "null"
  | .vInt64Ptr (some n) => toString n
  | _ => ""

/-- The literal formatter succeeds with the spec-side rendering exactly on the
supported kinds. -/
theorem sliceLiteral_eq (v : GoValue) :
    sliceLiteral v =
      if supportedLiteral v then .ok (literalOf v) else .error .unsupportedLiteralKind := by
  cases v <;> first
    | rfl
    | (rename_i o; cases o <;> rfl)

/-- Spec-side comma-separated list of the inline literals of the elements. -/
def litList : List GoValue → String
  | [] => ""
  | v :: rest => if rest.isEmpty then literalOf v else literalOf v ++ "," ++ litList rest

/-- Over the threshold, when every element is of a supported kind, the element
loop inlines all elements and appends no arguments. -/
theorem expandSliceAux_over (conf : DBConf) (p : Bool) :
    ∀ (elems : List GoValue) (k : Nat),
    (∀ e ∈ elems, supportedLiteral e = true) →
    expandSliceAux conf p true elems k = .ok (litList elems, [])
  | [], _, _ => rfl
  | item :: rest, k, hsup => by
    have hs := hsup item (List.mem_cons_self item rest)
    have ih := expandSliceAux_over conf p rest k
      (fun e he => hsup e (List.mem_cons_of_mem item he))
    simp [expandSliceAux, sliceLiteral_eq, hs, ih, litList]

/-- Over the threshold, an element of an unsupported kind anywhere in the
slice makes the element loop fail with the unsupported literal kind error. -/
theorem expandSliceAux_over_err (conf : DBConf) (p : Bool) :
    ∀ (elems : List GoValue) (k : Nat),
    (∃ e ∈ elems, supportedLiteral e = false) →
    expandSliceAux conf p true elems k = .error .unsupportedLiteralKind
  | [], _, hbad => by
    rcases hbad with ⟨e, he, _⟩
    exact absurd he (List.not_mem_nil e)
  | item :: rest, k, hbad => by
    by_cases hs : supportedLiteral item = true
    · have hrest : ∃ e ∈ rest, supportedLiteral e = false := by
        rcases hbad with ⟨e, he, hf⟩
        rcases List.mem_cons.mp he with rfl | hr
        · rw [hs] at hf; cases hf
        · exact ⟨e, hr, hf⟩
      have ih := expandSliceAux_over_err conf p rest k hrest
      simp [expandSliceAux, sliceLiteral_eq, hs, ih]
    · have hs2 : supportedLiteral item = false := by
        revert hs; cases supportedLiteral item <;> simp
      simp [expandSliceAux, sliceLiteral_eq, hs2]

/-- A character that neither opens a quoted span nor is one of the two
placeholder runes: the loop copies it verbatim. -/
def plainChar (conf : DBConf) (c : Char) : Prop :=
  c ≠ sq ∧ c ≠ dq ∧ c ≠ conf.placeholderKey ∧ c ≠ conf.placeholderValue

/-- One-step unfolding of the loop outside a quoted span. -/
theorem raLoop_cons_none (conf : DBConf) (c : Char) (rest : List Char)
    (args : List Arg) (n : Nat) :
    raLoop conf none (c :: rest) args n =
      (if c = sq ∨ c = dq then
        match raLoop conf (some c) rest args n with
        | .error e => .error e
        | .ok (s, out) => .ok (String.mk [c] ++ s, out)
      else if c = conf.placeholderKey ∨ c = conf.placeholderValue then
        match args with
        | [] => .error .argUnderflow
        | arg :: remArgs2 =>
          match consumePlaceholder conf c arg n with
          | .error e => .error e
          | .ok (frag, app) =>
            match raLoop conf none rest remArgs2 (n + app.length) with
            | .error e => .error e
            | .ok (s, out) => .ok (frag ++ s, app ++ out)
      else
        match raLoop conf none rest args n with
        | .error e => .error e
        | .ok (s, out) => .ok (String.mk [c] ++ s, out)) := rfl

/-- One step of the loop on a plain character: it is copied and the loop
continues. -/
theorem raLoop_plain_cons (conf : DBConf) (c : Char) (hc : plainChar conf c)
    (rest : List Char) (args : List Arg) (n : Nat) :
    raLoop conf none (c :: rest) args n =
      (match raLoop conf none rest args n with
       | .error e => .error e
       | .ok (s, out) => .ok (String.mk [c] ++ s, out)) := by
  obtain ⟨hc1, hc2, hc3, hc4⟩ := hc
  rw [raLoop_cons_none]
  rw [if_neg (by simp [hc1, hc2]), if_neg (by simp [hc3, hc4])]

/-- The loop copies a plain prefix verbatim and continues unchanged behind
it. -/
theorem raLoop_plain_front (conf : DBConf) :
    ∀ (pre : List Char), (∀ c ∈ pre, plainChar conf c) →
    ∀ (l : List Char) (args : List Arg) (n : Nat),
    raLoop conf none (pre ++ l) args n =
      (match raLoop conf none l args n with
       | .error e => .error e
       | .ok (s, out) => .ok (String.mk pre ++ s, out))
  | [], _, l, args, n => by
    cases hr : raLoop conf none l args n with
    | error e => simpa using hr
    | ok r =>
      cases r with
      | mk s out =>
        cases s with
        | mk sl => exact hr
  | c :: pre2, hpre, l, args, n => by
    have ih := raLoop_plain_front conf pre2
      (fun x hx => hpre x (List.mem_cons_of_mem c hx)) l args n
    show raLoop conf none (c :: (pre2 ++ l)) args n = _
    rw [raLoop_plain_cons conf c (hpre c (List.mem_cons_self c pre2)), ih]
    cases hr : raLoop conf none l args n with
    | error e => rfl
    | ok r =>
      cases r with
      | mk s out =>
        cases s with
        | mk sl =>
          show Except.ok (String.mk [c] ++ (String.mk pre2 ++ String.mk sl), out) =
            Except.ok (String.mk (c :: pre2) ++ String.mk sl, out)
          rw [← String.append_assoc]
          exact rfl

/-- C5: at a value placeholder whose argument is a slice, an empty slice makes
the rewrite fail with the empty-slice error, and a non-empty slice of length
at most MaxPlaceholder expands to a parenthesized, comma-separated list of
exactly length-many dialect placeholders with the null-normalized elements
appended to the rewritten argument list in order. Stated for an arbitrary
plain prefix before the placeholder, both dialects and any threshold, with the
placeholder rune distinct from the quote runes and from the key rune. -/
theorem c5_slice_expansion (conf : DBConf) (pre : List Char)
    (hpre : ∀ c ∈ pre, plainChar conf c) (p : Bool) (elems : List GoValue)
    (hv1 : conf.placeholderValue ≠ sq) (hv2 : conf.placeholderValue ≠ dq)
    (hv3 : conf.placeholderValue ≠ conf.placeholderKey) :
    (replaceArgs conf (String.mk (pre ++ [conf.placeholderValue])) [.slice p []] =
      .error .emptySlice)
    ∧ (elems ≠ [] → elems.length ≤ conf.maxPlaceholder →
      replaceArgs conf (String.mk (pre ++ [conf.placeholderValue])) [.slice p elems] =
        .ok (String.mk pre ++ ("(" ++ phList conf.placeholderMode 0 elems.length ++ ")"),
             (elems.map (nullNormalize p)).map Arg.value)) := by
  constructor
  · unfold replaceArgs
    rw [show (String.mk (pre ++ [conf.placeholderValue])).data
          = pre ++ [conf.placeholderValue] from rfl]
    rw [raLoop_plain_front conf pre hpre]
    rw [raLoop_cons_none, if_neg (by simp [hv1, hv2]), if_pos (Or.inr rfl)]
    have hcp : consumePlaceholder conf conf.placeholderValue (.slice p []) 0 =
        .error .emptySlice := by
      unfold consumePlaceholder
      rw [if_neg hv3]
      rfl
    simp [hcp]
  · intro hne hlen
    unfold replaceArgs
    rw [show (String.mk (pre ++ [conf.placeholderValue])).data
          = pre ++ [conf.placeholderValue] from rfl]
    rw [raLoop_plain_front conf pre hpre]
    rw [raLoop_cons_none, if_neg (by simp [hv1, hv2]), if_pos (Or.inr rfl)]
    have hz : ¬ (elems.length = 0) := fun h => hne (List.length_eq_zero.mp h)
    have hd : decide (conf.maxPlaceholder < elems.length) = false :=
      decide_eq_false (Nat.not_lt.mpr hlen)
    have hcp : consumePlaceholder conf conf.placeholderValue (.slice p elems) 0 =
        .ok ("(" ++ phList conf.placeholderMode 0 elems.length ++ ")",
             (elems.map (nullNormalize p)).map Arg.value) := by
      unfold consumePlaceholder
      rw [if_neg hv3]
      show (if elems.length = 0 then (.error .emptySlice : Except Err (String × List Arg))
            else match expandSliceAux conf p
                (decide (conf.maxPlaceholder < elems.length)) elems 0 with
            | .error e => .error e
            | .ok (frag, as) => .ok ("(" ++ frag ++ ")", as.map .value)) = _
      rw [if_neg hz, hd, expandSliceAux_under conf p elems 0 hne]
    simp [hcp, raLoop, String.append_empty]

/-- Witness for C5: with the defaults and a plain prefix character, an empty
slice fails with the empty-slice error, and the slice of an int and a nil
string pointer expands to two question marks with the nil pointer normalized
to NULL in the argument list. -/
theorem c5_slice_expansion_witness :
    (replaceArgs {} (String.mk ([Char.ofNat 88] ++ [({} : DBConf).placeholderValue]))
        [.slice true []] = .error .emptySlice)
    ∧ (replaceArgs {} (String.mk ([Char.ofNat 88] ++ [({} : DBConf).placeholderValue]))
        [.slice true [.vInt 1, .vStrPtr none]] =
      .ok (String.mk [Char.ofNat 88] ++ ("(" ++ phList PlaceholderMode.question 0 2 ++ ")"),
           (([GoValue.vInt 1, GoValue.vStrPtr none].map (nullNormalize true)).map Arg.value))) :=
  ⟨(c5_slice_expansion {} [Char.ofNat 88]
      (by intro c hc; simp at hc; subst hc
          exact ⟨by decide, by decide, by decide, by decide⟩)
      true [.vInt 1, .vStrPtr none] (by decide) (by decide) (by decide)).1,
   (c5_slice_expansion {} [Char.ofNat 88]
      (by intro c hc; simp at hc; subst hc
          exact ⟨by decide, by decide, by decide, by decide⟩)
      true [.vInt 1, .vStrPtr none] (by decide) (by decide) (by decide)).2
     (by decide) (by decide)⟩

/-- C6 counterexample: with the default MaxPlaceholder of 100, a slice of 101
int16 elements is rejected with the unsupported literal kind error, instead of
being inlined as the decimal literals the claim promises for every integer
kind. -/
theorem c6_counterexample :
    replaceArgs {} "?" [.slice false (List.replicate 101 (.vInt16 7))] =
      .error .unsupportedLiteralKind := by
  rfl

/-- C6 amended: over the threshold, every element of the supported kinds
(string, int, int32, int64 and pointers to these, nil pointers rendering as
null) is inlined as a comma-separated literal with no argument appended; a
slice containing an element of any other kind, including the other integer
widths such as int16, makes the rewrite fail with the unsupported literal kind
error and no SQL is produced. -/
theorem c6_literal_inlining (conf : DBConf) (p : Bool) (elems : List GoValue)
    (hv1 : conf.placeholderValue ≠ sq) (hv2 : conf.placeholderValue ≠ dq)
    (hv3 : conf.placeholderValue ≠ conf.placeholderKey)
    (hover : conf.maxPlaceholder < elems.length) :
    ((∀ e ∈ elems, supportedLiteral e = true) →
      replaceArgs conf (String.mk [conf.placeholderValue]) [.slice p elems] =
        .ok ("(" ++ litList elems ++ ")", []))
    ∧ ((∃ e ∈ elems, supportedLiteral e = false) →
      replaceArgs conf (String.mk [conf.placeholderValue]) [.slice p elems] =
        .error .unsupportedLiteralKind) := by
  have hne : elems ≠ [] := by
    intro h
    subst h
    simp at hover
  have hz : ¬ (elems.length = 0) := fun h => hne (List.length_eq_zero.mp h)
  have hd : decide (conf.maxPlaceholder < elems.length) = true := decide_eq_true hover
  constructor
  · intro hsup
    unfold replaceArgs
    rw [show (String.mk [conf.placeholderValue]).data = [conf.placeholderValue] from rfl]
    rw [raLoop_cons_none, if_neg (by simp [hv1, hv2]), if_pos (Or.inr rfl)]
    have hcp : consumePlaceholder conf conf.placeholderValue (.slice p elems) 0 =
        .ok ("(" ++ litList elems ++ ")", []) := by
      unfold consumePlaceholder
      rw [if_neg hv3]
      show (if elems.length = 0 then (.error .emptySlice : Except Err (String × List Arg))
            else match expandSliceAux conf p
                (decide (conf.maxPlaceholder < elems.length)) elems 0 with
            | .error e => .error e
            | .ok (frag, as) => .ok ("(" ++ frag ++ ")", as.map .value)) = _
      rw [if_neg hz, hd, expandSliceAux_over conf p elems 0 hsup]
      rfl
    simp [hcp, raLoop, String.append_empty]
  · intro hbad
    unfold replaceArgs
    rw [show (String.mk [conf.placeholderValue]).data = [conf.placeholderValue] from rfl]
    rw [raLoop_cons_none, if_neg (by simp [hv1, hv2]), if_pos (Or.inr rfl)]
    have hcp : consumePlaceholder conf conf.placeholderValue (.slice p elems) 0 =
        .error .unsupportedLiteralKind := by
      unfold consumePlaceholder
      rw [if_neg hv3]
      show (if elems.length = 0 then (.error .emptySlice : Except Err (String × List Arg))
            else match expandSliceAux conf p
                (decide (conf.maxPlaceholder < elems.length)) elems 0 with
            | .error e => .error e
            | .ok (frag, as) => .ok ("(" ++ frag ++ ")", as.map .value)) = _
      rw [if_neg hz, hd, expandSliceAux_over_err conf p elems 0 hbad]
    simp [hcp]

/-- Witness for C6: with a threshold of one, an int and a nil string pointer
are inlined as the literals 3 and null. -/
theorem c6_literal_inlining_witness :
    replaceArgs { maxPlaceholder := 1 }
        (String.mk [({ maxPlaceholder := 1 } : DBConf).placeholderValue])
        [.slice false [.vInt 3, .vStrPtr none]] =
      .ok ("(" ++ litList [.vInt 3, .vStrPtr none] ++ ")", []) :=
  (c6_literal_inlining { maxPlaceholder := 1 } false [.vInt 3, .vStrPtr none]
    (by decide) (by decide) (by decide) (by decide)).1 (by decide)

/-- Whether an Except result is a success. -/
def exceptOk {α : Type} : Except Err α → Bool
  | .ok _ => true
  | .error _ => false

/-- One call issued to the underlying database driver. -/
structure ExecCall where
  sql : String
  args : List Arg
deriving DecidableEq

/-- The handle state read by the write paths (wrapper.go DB): the rewriter
configuration, whether a transaction is active (sqlTx non-nil) and its write
mode flag, and the two driver capability flags set by Open. -/
structure DBState where
  conf : DBConf := {}
  txActive : Bool := false
  txWriteMode : Bool := false
  supportsLastInsertId : Bool := true
  useReturningForLastId : Bool := false
deriving DecidableEq

/-- The driver behind the handle: maps an issued call to an error or the pair
of rowsAffected and lastInsertId it reports. -/
abbrev ExecDriver := ExecCall → Except Err (Int × Int)

/-- execContext (exec.go lines 709 to 779): the read-only transaction check
comes first, then replaceArgs (only when arguments are present), then the one
driver call. Driver errors come back wrapped by sqlError (debugError returns
its argument unchanged); without SupportsLastInsertId the insert id is
reported as zero. The second component is the list of driver calls issued.
The per-transaction mutex and the debug logging of the source are elided. -/
def execContext (st : DBState) (driver : ExecDriver) (execSql : String)
    (args : List Arg) : Except Err (Int × Int) × List ExecCall :=
  if st.txActive ∧ st.txWriteMode = false then (.error .readOnlyViolation, [])
  else
    match (if args.isEmpty then .ok (execSql, args)
           else replaceArgs st.conf execSql args) with
    | .error e => (.error e, [])
    | .ok (sql0, newArgs) =>
      match driver { sql := sql0, args := newArgs } with
      | .error e => (.error (.sqlWrapped e), [{ sql := sql0, args := newArgs }])
      | .ok (rowCount, lastId) =>
        if st.supportsLastInsertId then
          (.ok (rowCount, lastId), [{ sql := sql0, args := newArgs }])
        else
          (.ok (rowCount, 0), [{ sql := sql0, args := newArgs }])

/-- ExecContext (wrapper.go lines 206 to 212): rejects the empty statement,
otherwise runs execContext and discards the counts. -/
def ExecContextM (st : DBState) (driver : ExecDriver) (execSql : String)
    (args : List Arg) : Except Err Unit × List ExecCall :=
  if execSql = "" then (.error .emptyQuery, [])
  else
    match execContext st driver execSql args with
    | (.error e, calls) => (.error e, calls)
    | (.ok _, calls) => (.ok (), calls)

/-- A record as extracted by valuesFromStruct (exec.go): the written columns
in iteration order, each with its value and field descriptor. Go iterates the
values map in unspecified order; the model fixes the order as given. -/
abbrev Row := List (String × GoValue × FieldInfo)

/-- strings.Join: the parts separated by sep (the sources emit the separator
before every part but the first, which builds the same string). -/
def joinSep (sep : String) : List String → String
  | [] => ""
  | [s] => s
  | s :: rest => s ++ sep ++ joinSep sep rest

/-- The column loop of insertClauseFromValues (exec.go lines 473 to 477):
escaped column names, one question mark per column, and the null-normalized
values. -/
def insertParts : Row → Except Err (List String × List String × List Arg)
  | [] => .ok ([], [], [])
  | (col, value, fi) :: rest => do
    let v ← nullValue value fi
    let (cols, vs, args) ← insertParts rest
    .ok (Esc col :: cols, "?" :: vs, .value v :: args)

/-- insertClauseFromValues (exec.go lines 468 to 483). -/
def insertClauseFromValues (table : String) (row : Row) :
    Except Err (String × List Arg) := do
  let (cols, vs, args) ← insertParts row
  .ok ("INSERT INTO " ++ Esc table ++ " (" ++ joinSep "," cols ++ ") VALUES("
        ++ joinSep "," vs ++ ")", args)

/-- onlyPrimaryKey (util.go): the single pk column of the record, or none when
it has zero or several pk columns. -/
def onlyPrimaryKey (row : Row) : Option (String × GoValue × FieldInfo) :=
  match row.filter (fun e => e.2.2.primaryKey) with
  | [e] => some e
  | _ => none

/-- insertStruct (exec.go lines 422 to 466). With UseReturningForLastId and a
single pk the insert runs as a query with RETURNING, behind an explicit
read-only check; otherwise it runs through execContext (whose read-only check
fires first) with the rowsAffected equals one requirement. The scanned alias
driver-returned insert id and the pk write-back are outside the model, which
tracks the control flow up to the driver calls. -/
def insertStructM (st : DBState) (driver : ExecDriver) (table : String) (row : Row) :
    Except Err Unit × List ExecCall :=
  match insertClauseFromValues table row with
  | .error e => (.error e, [])
  | .ok (sql, args) =>
    match (if st.useReturningForLastId then onlyPrimaryKey row else none) with
    | some pk =>
      if st.txActive ∧ st.txWriteMode = false then (.error .readOnlyViolation, [])
      else
        match replaceArgs st.conf (sql ++ " RETURNING " ++ Esc pk.1) args with
        | .error e => (.error e, [])
        | .ok (q0, newArgs) =>
          match driver { sql := q0, args := newArgs } with
          | .error e => (.error (.sqlWrapped e), [{ sql := q0, args := newArgs }])
          | .ok _ => (.ok (), [{ sql := q0, args := newArgs }])
    | none =>
      match execContext st driver sql args with
      | (.error e, calls) => (.error e, calls)
      | (.ok (rowCount, _), calls) =>
        if rowCount = 1 then (.ok (), calls) else (.error .mismatchedRows, calls)

/-- The slice loop of InsertContext (exec.go lines 84 to 95): one insertStruct
per row, stopping at the first error. -/
def insertContextM (st : DBState) (driver : ExecDriver) (table : String) :
    List Row → Except Err Unit × List ExecCall
  | [] => (.ok (), [])
  | row :: rest =>
    match insertStructM st driver table row with
    | (.error e, calls) => (.error e, calls)
    | (.ok _, calls) =>
      match insertContextM st driver table rest with
      | (res, calls2) => (res, calls ++ calls2)

/-- Accumulates the first-seen union of column names over the rows. Go keeps
them in a map whose iteration order is unspecified; the model uses first-seen
order. -/
def addKeys (acc : List String) : List String → List String
  | [] => acc
  | k :: rest => if acc.contains k then addKeys acc rest else addKeys (acc ++ [k]) rest

/-- The union of the column names of all rows (exec.go key_map). -/
def bulkKeys (rows : List Row) : List String :=
  rows.foldl (fun acc r => addKeys acc (r.map Prod.fst)) []

/-- The descriptor recorded for a column in key_map: the last row containing
the column wins, as in the source where later assignments overwrite. -/
def bulkFieldInfo (rows : List Row) (key : String) : FieldInfo :=
  match (rows.reverse.filterMap
      (fun r => (r.find? (fun e => e.1 = key)).map (fun e => e.2.2))).head? with
  | some fi => fi
  | none => {}

/-- The value a row supplies for a column; a column the row does not write is
the nil interface, which renders as NULL. -/
def rowValue (r : Row) (key : String) : GoValue :=
  match r.find? (fun e => e.1 = key) with
  | some e => e.2.1
  | none => .vNull

/-- The row tuples of the bulk insert, each tuple followed by a newline and
all tuples comma separated (exec.go lines 225 to 238). -/
def joinRows : List String → String
  | [] => ""
  | [s] => s ++ "\n"
  | s :: rest => s ++ "\n" ++ "," ++ joinRows rest

/-- The SQL builder of insertBulkContext (exec.go lines 206 to 250): the
INSERT header with the union of columns, one literal tuple per row through
EscValueForInsert, and the optional conflict suppression clause. -/
def buildInsertBulkSQL (table : String) (rows : List Row)
    (onConflictDoNothing : Bool) (conflictCols : List String) : Except Err String := do
  let keys := bulkKeys rows
  let rowsS ← rows.mapM (fun r => do
    let lits ← keys.mapM (fun k => EscValueForInsert (rowValue r k) (bulkFieldInfo rows k))
    (pure ("(" ++ joinSep "," lits ++ ")") : Except Err String))
  .ok ("INSERT INTO " ++ Esc table ++ " (" ++ joinSep "," (keys.map Esc)
    ++ ") VALUES \n" ++ joinRows rowsS
    ++ (if onConflictDoNothing then
          (if conflictCols.length > 0 then
            " ON CONFLICT (" ++ joinSep "," (conflictCols.map Esc) ++ ") DO NOTHING"
          else " ON CONFLICT DO NOTHING")
        else ""))

/-- insertBulkContext (exec.go lines 168 to 261): an empty slice returns
success before any SQL is built; otherwise the single statement is executed
with no arguments, rowsAffected must equal the row count unless conflicts are
suppressed, and any error is wrapped by sqlError. -/
def insertBulkContextM (st : DBState) (driver : ExecDriver) (table : String)
    (rows : List Row) (onConflictDoNothing : Bool) (conflictCols : List String) :
    Except Err Unit × List ExecCall :=
  if rows.isEmpty then (.ok (), [])
  else
    match buildInsertBulkSQL table rows onConflictDoNothing conflictCols with
    | .error e => (.error e, [])
    | .ok sql =>
      match execContext st driver sql [] with
      | (.error e, calls) => (.error (.sqlWrapped e), calls)
      | (.ok (rowCount, _), calls) =>
        if onConflictDoNothing = false ∧ rowCount ≠ (rows.length : Int) then
          (.error (.sqlWrapped .mismatchedRows), calls)
        else (.ok (), calls)

/-- The per-record fragment loop of UpdateBulkContext (exec.go lines 292 to
331): the set fragments for the non-pk columns and the where fragments for the
pk columns, values inlined through EscValueForInsert after null normalization;
a NULL primary key is rejected. -/
def updateRowParts : Row → Except Err (List String × List String)
  | [] => .ok ([], [])
  | (key, value, fi) :: rest => do
    let value2 ← nullValue value fi
    if fi.primaryKey then
      if value2 = .vNull then .error .nilPrimaryKey
      else do
        let lit ← EscValueForInsert value2 fi
        let (sets, wheres) ← updateRowParts rest
        .ok (sets, (Esc key ++ "=" ++ lit) :: wheres)
    else do
      let lit ← EscValueForInsert value2 fi
      let (sets, wheres) ← updateRowParts rest
      .ok ((Esc key ++ "=" ++ lit) :: sets, wheres)

/-- One UPDATE statement of the bulk script, terminated by a semicolon and a
newline (exec.go lines 300 to 331). -/
def updateRowSQL (table : String) (row : Row) : Except Err String := do
  let (sets, wheres) ← updateRowParts row
  .ok ("UPDATE " ++ Esc table ++ " SET " ++ joinSep "," sets
        ++ " WHERE " ++ joinSep " AND " wheres ++ ";\n")

/-- The record loop of UpdateBulkContext (exec.go lines 292 to 332): one
statement per record; the script sent to the driver is their concatenation
(the source appends them all into a single builder). -/
def buildStmtList (table : String) : List Row → Except Err (List String)
  | [] => .ok []
  | r :: rest =>
    match updateRowSQL table r with
    | .error e => .error e
    | .ok s =>
      match buildStmtList table rest with
      | .error e => .error e
      | .ok l => .ok (s :: l)

/-- UpdateBulkContext (exec.go lines 270 to 343): an empty slice returns
success before any SQL is built; otherwise the whole concatenated script runs
as one execContext call with no arguments, rowsAffected must equal one for the
whole script, and any error is wrapped by sqlError. -/
def updateBulkContextM (st : DBState) (driver : ExecDriver) (table : String)
    (rows : List Row) : Except Err Unit × List ExecCall :=
  if rows.isEmpty then (.ok (), [])
  else
    match buildStmtList table rows with
    | .error e => (.error e, [])
    | .ok stmts =>
      match execContext st driver (String.join stmts) [] with
      | (.error e, calls) => (.error (.sqlWrapped e), calls)
      | (.ok (rowCount, _), calls) =>
        if rowCount ≠ 1 then (.error (.sqlWrapped .mismatchedRows), calls)
        else (.ok (), calls)

/-- The fragment loop of updateClauseFromRow (exec.go lines 508 to 533): set
fragments with a dialect placeholder rune per non-pk column, where fragments
per pk column, and the two argument lists; a NULL primary key is rejected. -/
def updateClauseParts (conf : DBConf) :
    Row → Except Err (List String × List Arg × List String × List Arg)
  | [] => .ok ([], [], [], [])
  | (key, value, fi) :: rest =>
    if fi.primaryKey then
      match nullValue value fi with
      | .error e => .error e
      | .ok pkv =>
        if pkv = .vNull then .error .nilPrimaryKey
        else
          match updateClauseParts conf rest with
          | .error e => .error e
          | .ok (sf, sa, wf, wa) =>
            .ok (sf, sa,
                 (Esc key ++ "=" ++ String.mk [conf.placeholderValue]) :: wf,
                 .value pkv :: wa)
    else
      match nullValue value fi with
      | .error e => .error e
      | .ok v =>
        match updateClauseParts conf rest with
        | .error e => .error e
        | .ok (sf, sa, wf, wa) =>
          .ok ((Esc key ++ "=" ++ String.mk [conf.placeholderValue]) :: sf,
               .value v :: sa, wf, wa)

/-- updateClauseFromRow (exec.go lines 485 to 543): fails when the record has
no pk column, otherwise the UPDATE statement with placeholders and the set
arguments followed by the where arguments. -/
def updateClauseFromRow (conf : DBConf) (table : String) (row : Row) :
    Except Err (String × List Arg) :=
  match updateClauseParts conf row with
  | .error e => .error e
  | .ok (sf, sa, wf, wa) =>
    if wf.isEmpty then .error .noPkForUpdate
    else
      .ok ("UPDATE " ++ Esc table ++ " SET " ++ joinSep "," sf
            ++ " WHERE " ++ joinSep " AND " wf, sa ++ wa)

/-- The slice loop of UpdateContext (exec.go lines 583 to 598): one statement
per record through execContext, requiring rowsAffected equals one, stopping at
the first error. -/
def updateContextM (st : DBState) (driver : ExecDriver) (table : String) :
    List Row → Except Err Unit × List ExecCall
  | [] => (.ok (), [])
  | row :: rest =>
    match updateClauseFromRow st.conf table row with
    | .error e => (.error e, [])
    | .ok (sql, args) =>
      match execContext st driver sql args with
      | (.error e, calls) => (.error e, calls)
      | (.ok (rowCount, _), calls) =>
        if rowCount ≠ 1 then (.error .mismatchedRows, calls)
        else
          match updateContextM st driver table rest with
          | (res, calls2) => (res, calls ++ calls2)

/-- exceptOk holds exactly on successes. -/
theorem exceptOk_iff {α : Type} (r : Except Err α) : exceptOk r = true ↔ ∃ a, r = .ok a := by
  cases r <;> simp [exceptOk]

/-- The read-only check of execContext fires before the rewrite and before any
driver call. -/
theorem execContext_readOnly (st : DBState) (driver : ExecDriver) (s : String)
    (args : List Arg) (hro : st.txActive = true ∧ st.txWriteMode = false) :
    execContext st driver s args = (.error .readOnlyViolation, []) := by
  unfold execContext
  rw [if_pos ⟨hro.1, hro.2⟩]

/-- insertStruct on a read-only transaction fails with the read-only violation
before any driver call, on both the RETURNING and the plain path. -/
theorem insertStructM_readOnly (st : DBState) (driver : ExecDriver) (table : String)
    (row : Row) (hro : st.txActive = true ∧ st.txWriteMode = false)
    (hrow : exceptOk (insertClauseFromValues table row) = true) :
    insertStructM st driver table row = (.error .readOnlyViolation, []) := by
  obtain ⟨sa, hsa⟩ := (exceptOk_iff _).mp hrow
  obtain ⟨sql, args⟩ := sa
  unfold insertStructM
  rw [hsa]
  cases hu : st.useReturningForLastId with
  | true =>
    cases hpk : onlyPrimaryKey row with
    | some pk => simp [hpk, hro.1, hro.2]
    | none => simp [hpk, execContext_readOnly st driver sql args hro]
  | false => simp [execContext_readOnly st driver sql args hro]

/-- C2 counterexample: on a read-only transaction handle, InsertBulkContext
called with an empty slice returns success immediately, issuing no driver
call, instead of failing with the read-only violation the claim requires for
every invocation of the bulk variants. -/
theorem c2_counterexample :
    (({ txActive := true, txWriteMode := false } : DBState)).txActive = true
    ∧ (({ txActive := true, txWriteMode := false } : DBState)).txWriteMode = false
    ∧ insertBulkContextM { txActive := true, txWriteMode := false }
        (fun _ => .ok (1, 1)) "test" [] false [] = (.ok (), []) :=
  ⟨rfl, rfl, rfl⟩

/-- C2 amended: on a handle with an active transaction in read-only mode,
every write path that would reach the driver fails with the read-only
violation before any driver call (the bulk variants return it wrapped by
sqlError); the slice-taking operations called with an empty slice instead
return success immediately, also without any driver call. In either case the
issued call list is empty, so the database state is unchanged. -/
theorem c2_read_only_gate (st : DBState) (driver : ExecDriver) (table execSql : String)
    (args : List Arg) (row : Row) (rows : List Row) (occ : Bool) (ccols : List String)
    (hro : st.txActive = true ∧ st.txWriteMode = false) (hsql : execSql ≠ "")
    (hrow : exceptOk (insertClauseFromValues table row) = true)
    (hne : rows ≠ [])
    (hic : ∀ r ∈ rows, exceptOk (insertClauseFromValues table r) = true)
    (huc : ∀ r ∈ rows, exceptOk (updateClauseFromRow st.conf table r) = true)
    (hib : exceptOk (buildInsertBulkSQL table rows occ ccols) = true)
    (hub : exceptOk (buildStmtList table rows) = true) :
    ExecContextM st driver execSql args = (.error .readOnlyViolation, [])
    ∧ insertStructM st driver table row = (.error .readOnlyViolation, [])
    ∧ insertContextM st driver table rows = (.error .readOnlyViolation, [])
    ∧ updateContextM st driver table rows = (.error .readOnlyViolation, [])
    ∧ insertBulkContextM st driver table rows occ ccols =
        (.error (.sqlWrapped .readOnlyViolation), [])
    ∧ updateBulkContextM st driver table rows =
        (.error (.sqlWrapped .readOnlyViolation), [])
    ∧ insertContextM st driver table [] = (.ok (), [])
    ∧ updateContextM st driver table [] = (.ok (), [])
    ∧ insertBulkContextM st driver table [] occ ccols = (.ok (), [])
    ∧ updateBulkContextM st driver table [] = (.ok (), []) := by
  obtain ⟨r, rest, rfl⟩ : ∃ r rest, rows = r :: rest := by
    cases rows with
    | nil => exact absurd rfl hne
    | cons a b => exact ⟨a, b, rfl⟩
  refine ⟨?_, ?_, ?_, ?_, ?_, ?_, rfl, rfl, rfl, rfl⟩
  · unfold ExecContextM
    rw [if_neg hsql, execContext_readOnly st driver execSql args hro]
  · exact insertStructM_readOnly st driver table row hro hrow
  · have h1 := insertStructM_readOnly st driver table r hro
      (hic r (List.mem_cons_self r rest))
    have step : insertContextM st driver table (r :: rest) =
        (match insertStructM st driver table r with
         | (.error e, calls) => (.error e, calls)
         | (.ok _, calls) =>
           match insertContextM st driver table rest with
           | (res, calls2) => (res, calls ++ calls2)) := rfl
    rw [step, h1]
  · obtain ⟨⟨sql1, args1⟩, hclause⟩ := (exceptOk_iff _).mp
      (huc r (List.mem_cons_self r rest))
    have step : updateContextM st driver table (r :: rest) =
        (match updateClauseFromRow st.conf table r with
         | .error e => (.error e, [])
         | .ok (sql, args) =>
           match execContext st driver sql args with
           | (.error e, calls) => (.error e, calls)
           | (.ok (rowCount, _), calls) =>
             if rowCount ≠ 1 then (.error .mismatchedRows, calls)
             else
               match updateContextM st driver table rest with
               | (res, calls2) => (res, calls ++ calls2)) := rfl
    rw [step]
    simp [hclause, execContext_readOnly st driver sql1 args1 hro]
  · obtain ⟨sql1, hsql1⟩ := (exceptOk_iff _).mp hib
    unfold insertBulkContextM
    simp [hsql1, execContext_readOnly st driver sql1 [] hro]
  · obtain ⟨stmts, hstmts⟩ := (exceptOk_iff _).mp hub
    unfold updateBulkContextM
    simp [hstmts, execContext_readOnly st driver (String.join stmts) [] hro]

/-- Witness for C2 at a concrete read-only handle, a one-column record and a
one-record slice: every path returns the read-only violation with no driver
call, and the empty-slice paths return success with no driver call. -/
theorem c2_read_only_gate_witness :
    ExecContextM { txActive := true, txWriteMode := false } (fun _ => .ok (1, 1))
        "DELETE FROM t" [] = (.error .readOnlyViolation, [])
    ∧ insertStructM { txActive := true, txWriteMode := false } (fun _ => .ok (1, 1))
        "t" [("a", .vInt 1, {})] = (.error .readOnlyViolation, [])
    ∧ insertContextM { txActive := true, txWriteMode := false } (fun _ => .ok (1, 1))
        "t" [[("a", .vInt 1, { primaryKey := true })]] = (.error .readOnlyViolation, [])
    ∧ updateContextM { txActive := true, txWriteMode := false } (fun _ => .ok (1, 1))
        "t" [[("a", .vInt 1, { primaryKey := true })]] = (.error .readOnlyViolation, [])
    ∧ insertBulkContextM { txActive := true, txWriteMode := false } (fun _ => .ok (1, 1))
        "t" [[("a", .vInt 1, { primaryKey := true })]] false [] =
        (.error (.sqlWrapped .readOnlyViolation), [])
    ∧ updateBulkContextM { txActive := true, txWriteMode := false } (fun _ => .ok (1, 1))
        "t" [[("a", .vInt 1, { primaryKey := true })]] =
        (.error (.sqlWrapped .readOnlyViolation), [])
    ∧ insertContextM { txActive := true, txWriteMode := false } (fun _ => .ok (1, 1))
        "t" [] = (.ok (), [])
    ∧ updateContextM { txActive := true, txWriteMode := false } (fun _ => .ok (1, 1))
        "t" [] = (.ok (), [])
    ∧ insertBulkContextM { txActive := true, txWriteMode := false } (fun _ => .ok (1, 1))
        "t" [] false [] = (.ok (), [])
    ∧ updateBulkContextM { txActive := true, txWriteMode := false } (fun _ => .ok (1, 1))
        "t" [] = (.ok (), []) :=
  c2_read_only_gate { txActive := true, txWriteMode := false } (fun _ => .ok (1, 1))
    "t" "DELETE FROM t" [] [("a", .vInt 1, {})]
    [[("a", .vInt 1, { primaryKey := true })]] false []
    (by decide) (by decide) (by decide) (by decide)
    (by decide) (by decide) (by decide) (by decide)

/-- C9: the bulk insert, with or without conflict suppression, and the bulk
update called with an empty slice return success immediately: no SQL is built
and no driver call is issued, so the database state is unchanged. -/
theorem c9_empty_bulk_noop (st : DBState) (driver : ExecDriver) (table : String)
    (occ : Bool) (ccols : List String) :
    insertBulkContextM st driver table [] occ ccols = (.ok (), [])
    ∧ updateBulkContextM st driver table [] = (.ok (), []) :=
  ⟨rfl, rfl⟩

/-- One-step unfolding of the bulk update statement list at a cons. -/
theorem buildStmtList_cons (table : String) (r : Row) (rest : List Row) :
    buildStmtList table (r :: rest) =
      (match updateRowSQL table r with
       | .error e => .error e
       | .ok s =>
         match buildStmtList table rest with
         | .error e => .error e
         | .ok l => .ok (s :: l)) := rfl

/-- The statement list has one statement per record, each produced by
updateRowSQL on a record of the slice. -/
theorem buildStmtList_spec (table : String) :
    ∀ (rows : List Row) (stmts : List String),
    buildStmtList table rows = .ok stmts →
    stmts.length = rows.length
    ∧ ∀ s ∈ stmts, ∃ row ∈ rows, updateRowSQL table row = .ok s
  | [], stmts, h => by
    have h2 : ([] : List String) = stmts := by injection h
    subst h2
    exact ⟨rfl, fun s hs => absurd hs (List.not_mem_nil s)⟩
  | r :: rest, stmts, h => by
    rw [buildStmtList_cons] at h
    cases hs : updateRowSQL table r with
    | error e =>
      rw [hs] at h
      have h2 : (Except.error e : Except Err (List String)) = .ok stmts := h
      cases h2
    | ok s =>
      rw [hs] at h
      cases hr : buildStmtList table rest with
      | error e =>
        rw [hr] at h
        have h2 : (Except.error e : Except Err (List String)) = .ok stmts := h
        cases h2
      | ok l =>
        rw [hr] at h
        have h2 : Except.ok (s :: l) = Except.ok stmts := h
        have h3 : s :: l = stmts := by injection h2
        subst h3
        obtain ⟨hlen, hmem⟩ := buildStmtList_spec table rest l hr
        refine ⟨by simp [hlen], ?_⟩
        intro s2 hs2
        rcases List.mem_cons.mp hs2 with rfl | h4
        · exact ⟨r, List.mem_cons_self r rest, hs⟩
        · obtain ⟨row, hrow, hok⟩ := hmem s2 h4
          exact ⟨row, List.mem_cons_of_mem r hrow, hok⟩

/-- Every statement produced by updateRowSQL is a single UPDATE on the table,
terminated by a semicolon and a newline. -/
theorem updateRowSQL_shape (table : String) (row : Row) (s : String)
    (h : updateRowSQL table row = .ok s) :
    ∃ setPart wherePart,
      s = "UPDATE " ++ Esc table ++ " SET " ++ setPart
            ++ " WHERE " ++ wherePart ++ ";\n" := by
  unfold updateRowSQL at h
  cases hp : updateRowParts row with
  | error e =>
    rw [hp] at h
    have h2 : (Except.error e : Except Err String) = .ok s := h
    cases h2
  | ok sw =>
    obtain ⟨sets, wheres⟩ := sw
    rw [hp] at h
    have h2 : Except.ok ("UPDATE " ++ Esc table ++ " SET " ++ joinSep "," sets
        ++ " WHERE " ++ joinSep " AND " wheres ++ ";\n") = Except.ok s := h
    have h3 : "UPDATE " ++ Esc table ++ " SET " ++ joinSep "," sets
        ++ " WHERE " ++ joinSep " AND " wheres ++ ";\n" = s := by injection h2
    exact ⟨joinSep "," sets, joinSep " AND " wheres, h3.symm⟩

/-- Without a read-only transaction, execContext on an argument-free statement
skips the rewriter and performs exactly one driver call with an empty argument
list. -/
theorem execContext_noArgs (st : DBState) (driver : ExecDriver) (s : String)
    (hw : ¬ (st.txActive ∧ st.txWriteMode = false)) :
    execContext st driver s [] =
      (match driver { sql := s, args := [] } with
       | .error e => (.error (.sqlWrapped e), [{ sql := s, args := [] }])
       | .ok (rowCount, lastId) =>
         if st.supportsLastInsertId then
           (.ok (rowCount, lastId), [{ sql := s, args := [] }])
         else (.ok (rowCount, 0), [{ sql := s, args := [] }])) := by
  unfold execContext
  rw [if_neg hw]
  rfl

/-- C7: on a non-empty slice the bulk update issues exactly one driver call
whose SQL is the concatenation of one semicolon-and-newline-terminated UPDATE
statement per record and whose argument list is empty (all values are
inlined); the call fails with the mismatched rows sentinel (wrapped by
sqlError) unless the driver reports exactly one affected row for the whole
script. -/
theorem c7_update_bulk_script (st : DBState) (driver : ExecDriver) (table : String)
    (rows : List Row) (stmts : List String)
    (hwm : ¬ (st.txActive ∧ st.txWriteMode = false))
    (hne : rows ≠ [])
    (hbuild : buildStmtList table rows = .ok stmts) :
    stmts.length = rows.length
    ∧ (∀ s ∈ stmts, ∃ setPart wherePart,
        s = "UPDATE " ++ Esc table ++ " SET " ++ setPart
              ++ " WHERE " ++ wherePart ++ ";\n")
    ∧ updateBulkContextM st driver table rows =
        (match driver { sql := String.join stmts, args := [] } with
         | .error e => .error (.sqlWrapped (.sqlWrapped e))
         | .ok (rowCount, _) =>
           if rowCount = 1 then .ok () else .error (.sqlWrapped .mismatchedRows),
         [{ sql := String.join stmts, args := [] }]) := by
  obtain ⟨hlen, hmem⟩ := buildStmtList_spec table rows stmts hbuild
  refine ⟨hlen, ?_, ?_⟩
  · intro s hs
    obtain ⟨row, _, hok⟩ := hmem s hs
    exact updateRowSQL_shape table row s hok
  · unfold updateBulkContextM
    rw [if_neg (by simp [hne]), hbuild]
    show (match execContext st driver (String.join stmts) [] with
          | (.error e, calls) => ((.error (.sqlWrapped e) : Except Err Unit), calls)
          | (.ok (rowCount, _), calls) =>
            if rowCount ≠ 1 then (.error (.sqlWrapped .mismatchedRows), calls)
            else (.ok (), calls)) = _
    rw [execContext_noArgs st driver (String.join stmts) hwm]
    cases hd : driver { sql := String.join stmts, args := [] } with
    | error e => rfl
    | ok rc =>
      obtain ⟨rowCount, lastId⟩ := rc
      by_cases h1 : rowCount = 1
      · subst h1
        cases hsli : st.supportsLastInsertId <;> simp
      · cases hsli : st.supportsLastInsertId <;> simp [h1]

/-- Witness for C7 at a concrete two-column record with an integer primary
key, against a driver reporting one affected row: the single issued call
carries the inlined UPDATE statement and no arguments, and the operation
succeeds. -/
theorem c7_update_bulk_script_witness :
    updateBulkContextM {} (fun _ => .ok (1, 0)) "t"
        [[("id", .vInt 3, { primaryKey := true }), ("b", .vInt 5, {})]] =
      (.ok (), [{ sql := "UPDATE \"t\" SET \"b\"=5 WHERE \"id\"=3;\n", args := [] }]) := by
  have h := (c7_update_bulk_script {} (fun _ => .ok (1, 0)) "t"
    [[("id", .vInt 3, { primaryKey := true }), ("b", .vInt 5, {})]]
    ["UPDATE \"t\" SET \"b\"=5 WHERE \"id\"=3;\n"]
    (by decide) (by decide) (by decide)).2.2
  simpa using h

/-- The environment of one ExecTX run (exec_func.go lines 35 to 117): the
outcomes of the context-done check, the nested-transaction check, the pooled
connection acquisition, the raw driver connection capture, the transaction
begin, the write-mode defaults statement, the job, and the driver commit,
rollback and connection close calls. Outside errors are abstract codes. -/
structure ExecTXEnv where
  ctxDone : Bool := false
  ctxHasActiveTX : Bool := false
  connRes : Except Nat Unit := .ok ()
  rawRes : Except Nat Unit := .ok ()
  beginRes : Except Nat Unit := .ok ()
  writeMode : Bool := true
  defaultsRes : Except Nat Unit := .ok ()
  jobRes : Option Nat := none
  commitRes : Except Nat Unit := .ok ()
  rollbackRes : Except Nat Unit := .ok ()
  closeRes : Except Nat Unit := .ok ()
deriving DecidableEq

/-- The observable transaction events of one ExecTX run: whether the driver
rollback and commit were invoked, and whether the post-commit hook queue was
drained (Commit in transaction.go runs the hooks only after a successful
driver commit). -/
structure TxEvents where
  rollbackCalled : Bool := false
  commitCalled : Bool := false
  afterCommitHooksRan : Bool := false
deriving DecidableEq

/-- The rollback helper (exec_func.go lines 119 to 126): a failing driver
rollback is combined with the causing error, a successful one returns the
causing error unchanged. -/
def rollbackHelper (env : ExecTXEnv) (e : Err) : Except Err Unit :=
  match env.rollbackRes with
  | .ok _ => .error e
  | .error m => .error (.combined e (.code m))

/-- The deferred connection close of ExecTX (exec_func.go lines 61 to 66): a
failing close is combined with the current error, which may be nil. -/
def applyClose (closeRes : Except Nat Unit) (r : Except Err Unit) : Except Err Unit :=
  match closeRes with
  | .ok _ => r
  | .error n =>
    match r with
    | .ok _ => .error (.closeAfterOk n)
    | .error e => .error (.closeAfterErr e n)

/-- The body of ExecTX between the begin and the commit or rollback
(exec_func.go lines 84 to 111): begin errors are wrapped; in write mode the
driver-specific defaults statement runs first and its failure rolls back; a
job error rolls back; otherwise the transaction commits, and only a successful
driver commit drains the post-commit hooks. -/
def execTXCore (env : ExecTXEnv) : Except Err Unit × TxEvents :=
  match env.beginRes with
  | .error n => (.error (.wrapped (.code n)), {})
  | .ok _ =>
    match (if env.writeMode then env.defaultsRes else .ok ()) with
    | .error n => (rollbackHelper env (.wrapped (.code n)), { rollbackCalled := true })
    | .ok _ =>
      match env.jobRes with
      | some n => (rollbackHelper env (.code n), { rollbackCalled := true })
      | none =>
        match env.commitRes with
        | .ok _ => (.ok (), { commitCalled := true, afterCommitHooksRan := true })
        | .error n => (.error (.wrapped (.code n)), { commitCalled := true })

/-- ExecTX (exec_func.go lines 35 to 117): the guards, the connection and raw
capture, then the transactional body, with the deferred connection close
combined into the returned error. The job panic recovery is outside the
modeled environment (the job outcome is an Option error). -/
def ExecTX (env : ExecTXEnv) : Except Err Unit × TxEvents :=
  if env.ctxDone then (.error .ctxDone, {})
  else if env.ctxHasActiveTX then (.error .nestedTx, {})
  else
    match env.connRes with
    | .error n => (.error (.wrapped (.code n)), {})
    | .ok _ =>
      match env.rawRes with
      | .error n => (applyClose env.closeRes (.error (.code n)), {})
      | .ok _ =>
        match execTXCore env with
        | (r, evs) => (applyClose env.closeRes r, evs)

/-- C3: when the transaction is begun successfully and the job returns an
error, ExecTX rolls the transaction back before returning and returns the job
error, combined with the rollback error when the rollback itself also fails;
the commit path is never taken and the post-commit hooks never run. -/
theorem c3_exectx_rollback (env : ExecTXEnv) (n : Nat)
    (h1 : env.ctxDone = false) (h2 : env.ctxHasActiveTX = false)
    (h3 : env.connRes = .ok ()) (h4 : env.rawRes = .ok ())
    (h5 : env.beginRes = .ok ())
    (h6 : env.writeMode = true → env.defaultsRes = .ok ())
    (h7 : env.jobRes = some n) (h8 : env.closeRes = .ok ()) :
    ExecTX env =
      (match env.rollbackRes with
       | .ok _ => .error (.code n)
       | .error m => .error (.combined (.code n) (.code m)),
       { rollbackCalled := true, commitCalled := false, afterCommitHooksRan := false }) := by
  have hdef : (if env.writeMode then env.defaultsRes else .ok ()) = .ok () := by
    cases hw : env.writeMode with
    | true => simpa using h6 hw
    | false => rfl
  unfold ExecTX execTXCore
  rw [h1, h2, h3, h4, h5, h7, h8, hdef]
  cases hr : env.rollbackRes with
  | ok u => simp [rollbackHelper, applyClose, hr]
  | error m => simp [rollbackHelper, applyClose, hr]

/-- Witness for C3: a run where everything up to the job succeeds, the job
fails with code 5 and the rollback succeeds returns exactly the job error,
with the rollback performed and no commit and no post-commit hooks. -/
theorem c3_exectx_rollback_witness :
    ExecTX { jobRes := some 5 } =
      (.error (.code 5),
       { rollbackCalled := true, commitCalled := false, afterCommitHooksRan := false }) := by
  simpa using c3_exectx_rollback { jobRes := some 5 } 5 rfl rfl rfl rfl rfl
    (fun _ => rfl) rfl rfl

/-- The scan destinations distinguished by Scan (scan.go lines 317 to 350): a
reference to a single scalar or a single record is row mode, a slice is not,
and a reference to a rows iterator short-circuits inside QueryContext before
Scan runs. -/
inductive ScanTarget
  | scalarRef
  | recordRef
  | sliceRef
  | rowsRef
deriving DecidableEq

/-- Whether Scan treats the destination as a single row (scan.go line 348: not
a slice). -/
def rowModeOf : ScanTarget → Bool
  | .scalarRef => true
  | .recordRef => true
  | .sliceRef => false
  | .rowsRef => false

/-- The row loop of Scan (scan.go lines 352 to 383): in row mode the first row
is scanned and the loop returns; with zero rows the bare sentinel
queryReturnedZeroRows is returned; in slice mode every row is scanned and an
empty result is a success. The rows delivered by the driver and the per-row
scan outcome are parameters. -/
def ScanRows {ρ : Type} (rowMode : Bool) (scanRowRes : ρ → Except Err Unit) :
    List ρ → Except Err Unit
  | [] => if rowMode then .error .queryReturnedZeroRows else .ok ()
  | r :: rest =>
    if rowMode then scanRowRes r
    else
      match scanRowRes r with
      | .error e => .error e
      | .ok _ => ScanRows rowMode scanRowRes rest

/-- debugError (wrapper.go lines 261 to 270): returns its argument unchanged;
the dedicated first branch only skips recording LastError for the zero rows
sentinel, so in particular the sentinel passes through without wrapping. -/
def debugError (e : Err) : Err := e

/-- QueryContext (wrapper.go lines 159 to 200): rewrite the statement, query
the driver (driver errors wrapped by sqlError), capture the iterator verbatim
for a rows-reference target, otherwise Scan into the target; scan errors pass
through debugError unchanged. Debug printing is elided. -/
def QueryContextM {ρ : Type} (st : DBState)
    (queryDriver : String → List Arg → Except Err (List ρ)) (tgt : ScanTarget)
    (query : String) (args : List Arg) (scanRowRes : ρ → Except Err Unit) :
    Except Err Unit :=
  match replaceArgs st.conf query args with
  | .error e => .error e
  | .ok (q0, newArgs) =>
    match queryDriver q0 newArgs with
    | .error e => .error (debugError (.sqlWrapped e))
    | .ok rows =>
      match tgt with
      | .rowsRef => .ok ()
      | _ =>
        match ScanRows (rowModeOf tgt) scanRowRes rows with
        | .error e => .error (debugError e)
        | .ok _ => .ok ()

/-- C4: a query whose destination is a reference to a single scalar or a
single record and whose executed result set is empty returns exactly the
queryReturnedZeroRows sentinel constructor: Scan produces it bare and
debugError hands it back unchanged, so a caller comparing with the exported
sentinel observes identity. -/
theorem c4_zero_rows_identity {ρ : Type} (st : DBState)
    (queryDriver : String → List Arg → Except Err (List ρ)) (tgt : ScanTarget)
    (query q0 : String) (args newArgs : List Arg) (scanRowRes : ρ → Except Err Unit)
    (htgt : tgt = .scalarRef ∨ tgt = .recordRef)
    (hrw : replaceArgs st.conf query args = .ok (q0, newArgs))
    (hq : queryDriver q0 newArgs = .ok []) :
    QueryContextM st queryDriver tgt query args scanRowRes =
      .error .queryReturnedZeroRows := by
  rcases htgt with h | h <;> subst h <;>
    simp [QueryContextM, hrw, hq, ScanRows, rowModeOf, debugError]

/-- Witness for C4: a query with no arguments into a scalar reference against
a driver that returns zero rows yields the bare sentinel. -/
theorem c4_zero_rows_identity_witness :
    QueryContextM {} (fun _ _ => .ok ([] : List Unit)) .scalarRef "SELECT 1" []
        (fun _ => .ok ()) = .error .queryReturnedZeroRows :=
  c4_zero_rows_identity {} (fun _ _ => .ok ([] : List Unit)) .scalarRef
    "SELECT 1" "SELECT 1" [] [] (fun _ => .ok ())
    (by decide) (by decide) rfl

end Sqlpro
